import Mathlib

/-!
StudyPal review scheduling and assessment engine, shallowly embedded in Lean.

The definitions below are translated from the TypeScript source of the
repository (route handlers in index.ts):
- the SM-2 spaced-repetition update and the review route for flashcards,
- the due-card query,
- quiz-attempt grading in the submit route,
- the study-session end route,
- the study-streak computation.

JavaScript numbers are modelled as rationals; a division that JavaScript
evaluates to a non-finite value (NaN or an infinity) is modelled as `none`.
Timestamps are integers (milliseconds since the epoch) and the calendar-day
truncation performed by setHours(0,0,0,0) is modelled in a fixed (UTC) zone.
-/

namespace StudyPal

/-- Number of milliseconds in one calendar day, the constant 1000*60*60*24
used by the streak computation. -/
def msPerDay : Int := 86400000

/-- JavaScript Math.round on a rational: rounds half toward positive
infinity. -/
def jsRound (x : ℚ) : Int := ⌊x + 1/2⌋

/-- JavaScript division on numbers, modelled on rationals: division by zero
produces a non-finite value (NaN when the numerator is also zero), modelled
as `none`. -/
def jsDiv (a b : ℚ) : Option ℚ := if b = 0 then none else some (a / b)

/-- Midnight at the start of the calendar day containing `t`, in a fixed
(UTC) zone: models `date.setHours(0,0,0,0)` on a timestamp. -/
def dayStart (t : Int) : Int := msPerDay * (t.fdiv msPerDay)

/-- Spaced-repetition state stored on a flashcard
(`flashcard.spaced_repetition` in the source). -/
structure SpacedRep where
  easiness_factor : ℚ
  interval : Int
  repetitions : Int
  next_review_date : Int
  last_reviewed : Option Int
  deriving DecidableEq

/-- SM-2 update performed by the review route (flashcards review handler):
computes the new easiness factor with its 1.3 floor, the new interval and
repetition count, and schedules the next review `newInterval` days ahead.
The calendar-day addition done with setDate is modelled as adding whole
days in the fixed zone. -/
def sm2Update (sr : SpacedRep) (quality : Int) (now : Int) : SpacedRep :=
  let newEF0 : ℚ :=
    sr.easiness_factor + (0.1 - (5 - (quality : ℚ)) * (0.08 + (5 - (quality : ℚ)) * 0.02))
  let newEF : ℚ := if newEF0 < 1.3 then 1.3 else newEF0
  let newInterval : Int :=
    if quality < 3 then 1
    else if sr.repetitions = 0 then 1
    else if sr.repetitions = 1 then 6
    else jsRound ((sr.interval : ℚ) * newEF)
  let newRepetitions : Int := if quality < 3 then 0 else sr.repetitions + 1
  { easiness_factor := newEF
    interval := newInterval
    repetitions := newRepetitions
    next_review_date := now + newInterval * msPerDay
    last_reviewed := some now }

/-- One entry of a flashcard review history (`review_history` in the
source). -/
structure ReviewEvent where
  reviewed_at : Int
  quality : Int
  response_time : Int
  was_correct : Bool
  deriving DecidableEq

/-- The flashcard fields touched by the review route and the due query. -/
structure Flashcard where
  spaced_repetition : SpacedRep
  review_history : List ReviewEvent
  times_reviewed : Int
  times_correct : Int
  times_incorrect : Int
  is_archived : Bool
  deriving DecidableEq

/-- The review route body: applies the SM-2 update, appends a review event,
and bumps the aggregate counters. The handler reads `quality` from the
request body without validating it. -/
def reviewHandler (card : Flashcard) (quality : Int) (response_time : Int) (now : Int) :
    Flashcard :=
  { card with
    spaced_repetition := sm2Update card.spaced_repetition quality now
    review_history :=
      card.review_history ++ [⟨now, quality, response_time, decide (3 ≤ quality)⟩]
    times_reviewed := card.times_reviewed + 1
    times_correct := if 3 ≤ quality then card.times_correct + 1 else card.times_correct
    times_incorrect := if 3 ≤ quality then card.times_incorrect else card.times_incorrect + 1 }

/-- The due-card query: non-archived cards whose next review date is at or
before `now`, capped at 50 results. -/
def selectDue (cards : List Flashcard) (now : Int) : List Flashcard :=
  (cards.filter fun c =>
    !c.is_archived && decide (c.spaced_repetition.next_review_date ≤ now)).take 50

/-- A quiz question (fields used by the grading route). -/
structure Question where
  question_id : String
  correct_answer : String
  points : Int
  difficulty : String
  deriving DecidableEq

/-- One element of the submitted `answers` array of the submit route. -/
structure AnswerIn where
  question_id : String
  user_answer : String
  time_spent : Int
  deriving DecidableEq

/-- One graded answer as produced inside the submit route. -/
structure GradedAnswer where
  question_id : String
  user_answer : String
  is_correct : Bool
  time_spent : Int
  answered_at : Int
  deriving DecidableEq

/-- The performance analysis stored on a completed attempt. -/
structure PerformanceAnalysis where
  strengths : List String
  weaknesses : List String
  recommended_study_materials : List String
  deriving DecidableEq

/-- The quiz fields read by the submit route. -/
structure Quiz where
  document_id : String
  questions : List Question
  total_questions : Nat
  total_points : Int
  passing_score : ℚ
  deriving DecidableEq

/-- The quiz-attempt fields written by the submit route. -/
structure QuizAttempt where
  started_at : Int
  answers : List GradedAnswer
  score : Option ℚ
  points_earned : Int
  total_time : Int
  completed_at : Option Int
  status : String
  performance_analysis : PerformanceAnalysis
  deriving DecidableEq

/-- Lookup of a question by identifier, as in
`quiz.questions.find(q => q.question_id.toString() === ans.question_id)`. -/
def findQuestion (qs : List Question) (qid : String) : Option Question :=
  qs.find? fun q => q.question_id == qid

/-- Grades one submitted answer: correct exactly when a matching question
exists and its correct answer equals the submitted answer (a missing
question makes the JavaScript expression falsy). -/
def gradeAnswer (qs : List Question) (now : Int) (a : AnswerIn) : GradedAnswer :=
  { question_id := a.question_id
    user_answer := a.user_answer
    is_correct :=
      match findQuestion qs a.question_id with
      | some q => q.correct_answer == a.user_answer
      | none => false
    time_spent := a.time_spent
    answered_at := now }

/-- The `answers.map(...)` pass of the submit route. -/
def gradeAnswers (qs : List Question) (now : Int) (answers : List AnswerIn) :
    List GradedAnswer :=
  answers.map (gradeAnswer qs now)

/-- The `correctCount` accumulator of the submit route. -/
def correctCountOf (graded : List GradedAnswer) : Nat :=
  (graded.filter fun a => a.is_correct).length

/-- The `totalPoints` accumulator: points of the matching question are added
for every correct answer. -/
def pointsEarnedOf (qs : List Question) (graded : List GradedAnswer) : Int :=
  graded.foldl
    (fun acc a =>
      match findQuestion qs a.question_id with
      | some q => if a.is_correct then acc + q.points else acc
      | none => acc)
    0

/-- The `totalTime` reduction over graded answers. -/
def totalTimeOf (graded : List GradedAnswer) : Int :=
  graded.foldl (fun s a => s + a.time_spent) 0

/-- The strengths list built by the performance-analysis loop: one push of
the tag for every correct answer whose matching question is hard. -/
def strengthsOf (qs : List Question) : List GradedAnswer → List String
  | [] => []
  | a :: rest =>
    (match findQuestion qs a.question_id with
     | some q => if a.is_correct && q.difficulty == "hard" then ["Complex concepts"] else []
     | none => []) ++ strengthsOf qs rest

/-- The weaknesses list built by the performance-analysis loop: one push of
the difficulty-keyed tag for every incorrect answer with a matching
question. -/
def weaknessesOf (qs : List Question) : List GradedAnswer → List String
  | [] => []
  | a :: rest =>
    (match findQuestion qs a.question_id with
     | some q => if a.is_correct then [] else [q.difficulty ++ " questions"]
     | none => []) ++ weaknessesOf qs rest

/-- Worker for `jsSetDedup`, carrying the set of strings already emitted. -/
def jsSetDedupAux (seen : List String) : List String → List String
  | [] => []
  | x :: xs => if x ∈ seen then jsSetDedupAux seen xs else x :: jsSetDedupAux (x :: seen) xs

/-- Deduplication through a JavaScript Set spread, keeping the first
occurrence of each element in order. -/
def jsSetDedup (l : List String) : List String := jsSetDedupAux [] l

/-- The submit route body after the attempt and quiz lookups: grades the
answers, computes score, points, total time and the performance analysis,
and marks the attempt completed. The route performs no check on the prior
status of the attempt. -/
def submitAttempt (attempt : QuizAttempt) (quiz : Quiz) (answers : List AnswerIn)
    (now : Int) : QuizAttempt :=
  let graded := gradeAnswers quiz.questions now answers
  { attempt with
    answers := graded
    score := (jsDiv (correctCountOf graded : ℚ) (quiz.total_questions : ℚ)).map
      (fun s => s * 100)
    points_earned := pointsEarnedOf quiz.questions graded
    total_time := totalTimeOf graded
    completed_at := some now
    status := "completed"
    performance_analysis :=
      { strengths := jsSetDedup (strengthsOf quiz.questions graded)
        weaknesses := jsSetDedup (weaknessesOf quiz.questions graded)
        recommended_study_materials := [quiz.document_id] } }

/-- The session fields written by the end-session route. -/
structure SessionEnd where
  duration : Int
  cards_reviewed : ℚ
  cards_correct : ℚ
  focus_score : Option ℚ
  deriving DecidableEq

/-- The end-session route body: duration in minutes and the guarded focus
score `cards_reviewed > 0 ? (cards_correct / cards_reviewed) * 100 : 0`. -/
def endSession (started_at now : Int) (cards_reviewed cards_correct : ℚ) : SessionEnd :=
  { duration := jsRound (((now - started_at : Int) : ℚ) / 60000)
    cards_reviewed := cards_reviewed
    cards_correct := cards_correct
    focus_score :=
      if 0 < cards_reviewed then (jsDiv cards_correct cards_reviewed).map (fun s => s * 100)
      else some 0 }

/-- Descending sort on session start timestamps, as done by
`sessions.sort((a, b) => b.started_at - a.started_at)`. -/
def sortDesc (l : List Int) : List Int := List.insertionSort (fun a b => b ≤ a) l

/-- The loop of `calculateStreak`: walks the sessions most recent first with
a running streak counter and a cursor day, matching a session whose
floored day difference from the cursor equals the current streak value. -/
def streakGo : List Int → Int → Int → Int
  | [], streak, _ => streak
  | s :: rest, streak, cur =>
    let sd := dayStart s
    let dayDiff := (cur - sd).fdiv msPerDay
    if dayDiff = streak then streakGo rest (streak + 1) sd
    else if streak < dayDiff then streak
    else streakGo rest streak cur

/-- The `calculateStreak` function of the analytics route, on the list of
session start timestamps. -/
def calculateStreak (sessions : List Int) (now : Int) : Int :=
  if sessions.isEmpty then 0
  else streakGo (sortDesc sessions) 0 (dayStart now)

/-- True when some session starts on the calendar day beginning at `d`. -/
def hasSessionOnDay (sessions : List Int) (d : Int) : Bool :=
  sessions.any fun s => dayStart s == d

/-- Fuel-bounded count of consecutive days with a session, walking backward
from day `d`. -/
def consecutiveDaysFrom (sessions : List Int) : Int → Nat → Nat
  | _, 0 => 0
  | d, fuel + 1 =>
    if hasSessionOnDay sessions d then consecutiveDaysFrom sessions (d - msPerDay) fuel + 1
    else 0

/-- Modelled from the spec glossary, for comparison with `calculateStreak`:
the count of consecutive calendar days with at least one recorded study
session, ending at the current day. The fuel bound of one more than the
session count exceeds any possible streak length. -/
def specStreak (sessions : List Int) (now : Int) : Nat :=
  consecutiveDaysFrom sessions (dayStart now) (sessions.length + 1)

/-- The optional strength tag contributed by one graded answer; used to
restate the strengths loop as a filterMap. -/
def strengthTag (qs : List Question) (a : GradedAnswer) : Option String :=
  match findQuestion qs a.question_id with
  | some qn => if a.is_correct && qn.difficulty == "hard" then some "Complex concepts" else none
  | none => none

/-- The optional weakness tag contributed by one graded answer; used to
restate the weaknesses loop as a filterMap. -/
def weaknessTag (qs : List Question) (a : GradedAnswer) : Option String :=
  match findQuestion qs a.question_id with
  | some qn => if a.is_correct then none else some (qn.difficulty ++ " questions")
  | none => none

/-- A freshly generated spaced-repetition state, as written by the
flashcard generation route. -/
def exFresh : SpacedRep := ⟨2.5, 1, 0, 0, none⟩

/-- A fresh, never-reviewed, non-archived flashcard. -/
def exCard0 : Flashcard := ⟨exFresh, [], 0, 0, 0, false⟩

/-- A non-archived flashcard whose next review lies in the future of time
0. -/
def exNotDue : Flashcard := ⟨⟨2.5, 1, 0, 1, none⟩, [], 0, 0, 0, false⟩

/-- A quiz attempt as created by the start route. -/
def exAttempt0 : QuizAttempt := ⟨0, [], none, 0, 0, none, "in_progress", ⟨[], [], []⟩⟩

/-- A quiz attempt that already carries a stored grading result. -/
def exAttemptDone : QuizAttempt :=
  ⟨0, [], some 55, 5, 9, some 50, "completed", ⟨["s"], ["w"], []⟩⟩

/-- A quiz with no questions. -/
def exQuiz0 : Quiz := ⟨"doc0", [], 0, 0, 70⟩

/-- A one-question quiz. -/
def exQuiz1 : Quiz := ⟨"doc1", [⟨"q1", "A", 10, "hard"⟩], 1, 10, 70⟩

/-- A two-question quiz with one hard and one medium question. -/
def exQuiz2 : Quiz := ⟨"doc2", [⟨"q1", "A", 5, "hard"⟩, ⟨"q2", "B", 5, "medium"⟩], 2, 10, 70⟩

instance : IsTotal Int fun a b => b ≤ a := ⟨fun a b => le_total b a⟩

instance : IsTrans Int fun a b => b ≤ a := ⟨fun _ _ _ h1 h2 => le_trans h2 h1⟩

instance : IsAntisymm Int fun a b => b ≤ a := ⟨fun _ _ h1 h2 => le_antisymm h2 h1⟩

/-- Unfolding equation for the easiness factor of an SM-2 update. -/
theorem sm2Update_easiness_eq (sr : SpacedRep) (q now : Int) :
    (sm2Update sr q now).easiness_factor =
      if sr.easiness_factor + (0.1 - (5 - (q : ℚ)) * (0.08 + (5 - (q : ℚ)) * 0.02)) < 1.3
      then 1.3
      else sr.easiness_factor + (0.1 - (5 - (q : ℚ)) * (0.08 + (5 - (q : ℚ)) * 0.02)) := rfl

/-- Unfolding equation for the repetition count of an SM-2 update. -/
theorem sm2Update_repetitions_eq (sr : SpacedRep) (q now : Int) :
    (sm2Update sr q now).repetitions = if q < 3 then 0 else sr.repetitions + 1 := rfl

/-- Unfolding equation for the interval of an SM-2 update. -/
theorem sm2Update_interval_eq (sr : SpacedRep) (q now : Int) :
    (sm2Update sr q now).interval =
      if q < 3 then 1
      else if sr.repetitions = 0 then 1
      else if sr.repetitions = 1 then 6
      else jsRound ((sr.interval : ℚ) * (sm2Update sr q now).easiness_factor) := rfl

/-- The updated easiness factor never lies below the 1.3 floor. -/
theorem sm2Update_easiness_ge (sr : SpacedRep) (q now : Int) :
    (1.3 : ℚ) ≤ (sm2Update sr q now).easiness_factor := by
  rw [sm2Update_easiness_eq]
  split_ifs with h
  · exact le_refl _
  · exact le_of_not_lt h

/-- C4: for quality in [0,5] the SM-2 update computes the easiness factor
by the stated formula floored at 1.3; a failing quality resets repetitions
to 0 and the interval to 1; a passing quality maps prior repetition counts
0, 1 and at least 2 to intervals 1, 6 and round(interval times the new
easiness factor) and increments repetitions. In particular the fresh state
with easiness 2.5, interval 1, repetitions 0, reviewed with quality 4,
yields easiness 2.5, interval 1, repetitions 1. -/
theorem sm2Update_spec :
    (∀ (sr : SpacedRep) (q now : Int), 0 ≤ q → q ≤ 5 →
      ((sm2Update sr q now).easiness_factor
          = max 1.3 (sr.easiness_factor
              + (0.1 - (5 - (q : ℚ)) * (0.08 + (5 - (q : ℚ)) * 0.02))) ∧
        (q < 3 → (sm2Update sr q now).repetitions = 0 ∧ (sm2Update sr q now).interval = 1) ∧
        (3 ≤ q →
          (sm2Update sr q now).repetitions = sr.repetitions + 1 ∧
          (sr.repetitions = 0 → (sm2Update sr q now).interval = 1) ∧
          (sr.repetitions = 1 → (sm2Update sr q now).interval = 6) ∧
          (2 ≤ sr.repetitions →
            (sm2Update sr q now).interval
              = jsRound ((sr.interval : ℚ) * (sm2Update sr q now).easiness_factor))))) ∧
    ((sm2Update exFresh 4 0).easiness_factor = 2.5 ∧
      (sm2Update exFresh 4 0).interval = 1 ∧ (sm2Update exFresh 4 0).repetitions = 1) := by
  constructor
  · intro sr q now _ _
    refine ⟨?_, ?_, ?_⟩
    · rw [sm2Update_easiness_eq]
      rcases lt_or_le
          (sr.easiness_factor + (0.1 - (5 - (q : ℚ)) * (0.08 + (5 - (q : ℚ)) * 0.02)))
          (1.3 : ℚ) with h | h
      · rw [if_pos h, max_eq_left h.le]
      · rw [if_neg (not_lt.mpr h), max_eq_right h]
    · intro h3
      rw [sm2Update_repetitions_eq, sm2Update_interval_eq, if_pos h3, if_pos h3]
      exact ⟨rfl, rfl⟩
    · intro h3
      have h3n : ¬q < 3 := not_lt.mpr h3
      refine ⟨?_, ?_, ?_, ?_⟩
      · rw [sm2Update_repetitions_eq, if_neg h3n]
      · intro h0
        rw [sm2Update_interval_eq, if_neg h3n, if_pos h0]
      · intro h1
        rw [sm2Update_interval_eq, if_neg h3n, if_neg (by omega), if_pos h1]
      · intro h2
        rw [sm2Update_interval_eq, if_neg h3n, if_neg (by omega), if_neg (by omega)]
  · refine ⟨?_, ?_, ?_⟩ <;> norm_num [sm2Update, exFresh]

/-- Witness for `sm2Update_spec`: the general part applied at the fresh
state and quality 4. -/
theorem sm2Update_spec_witness :
    (sm2Update exFresh 4 0).easiness_factor
      = max 1.3 (exFresh.easiness_factor
          + (0.1 - (5 - ((4 : Int) : ℚ)) * (0.08 + (5 - ((4 : Int) : ℚ)) * 0.02))) :=
  (sm2Update_spec.1 exFresh 4 0 (by decide) (by decide)).1

/-- C5: along any sequence of reviews whose qualities lie in [0,5],
starting from an easiness factor at or above 1.3, the easiness factor
stays at or above 1.3; the 1.3 floor applies at every step. -/
theorem easiness_floor_invariant (sr : SpacedRep) (qs : List Int) (now : Int)
    (h0 : (1.3 : ℚ) ≤ sr.easiness_factor) (hqs : ∀ q ∈ qs, 0 ≤ q ∧ q ≤ 5) :
    (1.3 : ℚ) ≤ ((qs.foldl (fun s q => sm2Update s q now) sr).easiness_factor) := by
  induction qs generalizing sr with
  | nil => simpa using h0
  | cons q rest ih =>
    simp only [List.foldl_cons]
    exact ih (sm2Update sr q now) (sm2Update_easiness_ge sr q now)
      (fun x hx => hqs x (List.mem_cons_of_mem _ hx))

/-- Witness for `easiness_floor_invariant`: an all-zero quality streak of
length three from a fresh card. -/
theorem easiness_floor_invariant_witness :
    (1.3 : ℚ) ≤ (([0, 0, 0] : List Int).foldl
      (fun s q => sm2Update s q 0) exFresh).easiness_factor :=
  easiness_floor_invariant exFresh [0, 0, 0] 0 (by norm_num [exFresh]) (by decide)

/-- C3 counterexample: a review request with quality 6, outside [0,5], is
not rejected: the handler applies the update to the fresh card and the
stored memory state changes (the easiness factor moves from 2.5 to
2.66 and the counters advance). -/
theorem review_invalid_quality_cex :
    (reviewHandler exCard0 6 1000 0).spaced_repetition.easiness_factor
        ≠ exCard0.spaced_repetition.easiness_factor ∧
    (reviewHandler exCard0 6 1000 0).spaced_repetition.easiness_factor = 2.66 ∧
    (reviewHandler exCard0 6 1000 0).times_reviewed = exCard0.times_reviewed + 1 := by
  refine ⟨?_, ?_, rfl⟩ <;> norm_num [reviewHandler, sm2Update, exCard0, exFresh]

/-- C3 amended: the review handler performs no validation of quality;
a review with the out-of-range quality 6 is processed like any other,
raising the easiness factor by 0.16 (no 1.3 floor fires when the prior
factor is at least 1.3), incrementing repetitions and the aggregate
review counter. -/
theorem review_no_validation (c : Flashcard) (rt now : Int)
    (h : (1.3 : ℚ) ≤ c.spaced_repetition.easiness_factor) :
    (reviewHandler c 6 rt now).spaced_repetition.easiness_factor
        = c.spaced_repetition.easiness_factor + 0.16 ∧
    (reviewHandler c 6 rt now).spaced_repetition.repetitions
        = c.spaced_repetition.repetitions + 1 ∧
    (reviewHandler c 6 rt now).times_reviewed = c.times_reviewed + 1 := by
  have hsp : (reviewHandler c 6 rt now).spaced_repetition
      = sm2Update c.spaced_repetition 6 now := rfl
  refine ⟨?_, ?_, rfl⟩
  · rw [hsp, sm2Update_easiness_eq]
    have hED : c.spaced_repetition.easiness_factor
        + (0.1 - (5 - ((6 : Int) : ℚ)) * (0.08 + (5 - ((6 : Int) : ℚ)) * 0.02))
        = c.spaced_repetition.easiness_factor + 0.16 := by
      push_cast
      ring_nf
    rw [hED, if_neg (by linarith)]
  · rw [hsp, sm2Update_repetitions_eq, if_neg (by omega)]

/-- Witness for `review_no_validation`: the out-of-range review applied to
the fresh card. -/
theorem review_no_validation_witness :
    (reviewHandler exCard0 6 1000 0).spaced_repetition.easiness_factor
      = exCard0.spaced_repetition.easiness_factor + 0.16 :=
  (review_no_validation exCard0 1000 0 (by norm_num [exCard0, exFresh])).1

/-- C10: the focus score stored by the end-session route equals
(cards correct over cards reviewed) times 100 when the reviewed count is
positive and 0 when it is 0; the guarded division never produces a
non-finite value. -/
theorem focus_score_defined (started_at now : Int) (cr cc : ℚ) :
    (0 < cr → (endSession started_at now cr cc).focus_score = some (cc / cr * 100)) ∧
    (cr = 0 → (endSession started_at now cr cc).focus_score = some 0) ∧
    (endSession started_at now cr cc).focus_score ≠ none := by
  have hf : (endSession started_at now cr cc).focus_score
      = if 0 < cr then (jsDiv cc cr).map (fun s => s * 100) else some 0 := rfl
  refine ⟨?_, ?_, ?_⟩
  · intro h
    rw [hf, if_pos h]
    simp [jsDiv, ne_of_gt h]
  · intro h
    rw [hf, if_neg (by simp [h])]
  · rw [hf]
    split_ifs with h
    · simp [jsDiv, ne_of_gt h]
    · simp

/-- Witness for `focus_score_defined`: three correct cards of four reviewed
give focus score 75. -/
theorem focus_score_defined_witness : (endSession 0 60000 4 3).focus_score = some 75 := by
  have h := (focus_score_defined 0 60000 4 3).1 (by norm_num)
  rw [h]
  norm_num

/-- C1 counterexample: submitting the one-question quiz twice on the same
attempt is not rejected: the first call stores score 100 and status
completed, and the second call on the already-completed attempt re-grades
and stores score 0, overwriting the first result. -/
theorem submit_regrade_cex :
    (submitAttempt exAttempt0 exQuiz1 [⟨"q1", "A", 30⟩] 100).status = "completed" ∧
    (submitAttempt exAttempt0 exQuiz1 [⟨"q1", "A", 30⟩] 100).score = some 100 ∧
    (submitAttempt (submitAttempt exAttempt0 exQuiz1 [⟨"q1", "A", 30⟩] 100) exQuiz1
        [⟨"q1", "B", 5⟩] 200).score = some 0 ∧
    some (100 : ℚ) ≠ some (0 : ℚ) := by
  have hq : ("q1" == "q1") = true := by decide
  have ha : ("A" == "A") = true := by decide
  have hb : ("A" == "B") = false := by decide
  refine ⟨rfl, ?_, ?_, by norm_num⟩
  · norm_num [submitAttempt, gradeAnswers, gradeAnswer, findQuestion, correctCountOf, jsDiv,
      exAttempt0, exQuiz1, List.find?, List.filter, hq, ha]
  · norm_num [submitAttempt, gradeAnswers, gradeAnswer, findQuestion, correctCountOf, jsDiv,
      exAttempt0, exQuiz1, List.find?, List.filter, hq, hb]

/-- C1 amended: the submit route has no completion check: every call marks
the attempt completed and stores a result computed from the quiz and the
submitted answers alone, so a second call is accepted and overwrites the
stored result instead of raising an error. Two attempts differing only in
their stored results and status submit to identical attempts. -/
theorem submit_ignores_prior_result (a b : QuizAttempt) (quiz : Quiz)
    (ans : List AnswerIn) (now : Int) (h : a.started_at = b.started_at) :
    submitAttempt a quiz ans now = submitAttempt b quiz ans now ∧
    (submitAttempt a quiz ans now).status = "completed" := by
  constructor
  · simp only [submitAttempt, h]
  · rfl

/-- Witness for `submit_ignores_prior_result`: a fresh attempt and an
attempt already holding a grading result submit to the same state. -/
theorem submit_ignores_prior_result_witness :
    submitAttempt exAttempt0 exQuiz1 [⟨"q1", "A", 30⟩] 100
      = submitAttempt exAttemptDone exQuiz1 [⟨"q1", "A", 30⟩] 100 :=
  (submit_ignores_prior_result exAttempt0 exAttemptDone exQuiz1 [⟨"q1", "A", 30⟩] 100 rfl).1

/-- C2 counterexample: grading an attempt against the zero-question quiz
returns a completed result whose score is the non-finite value NaN
(modelled as `none`), not 0 and not an error. -/
theorem submit_zero_questions_cex :
    (submitAttempt exAttempt0 exQuiz0 [] 5).score = none ∧
    (submitAttempt exAttempt0 exQuiz0 [] 5).status = "completed" := by
  refine ⟨?_, rfl⟩
  norm_num [submitAttempt, gradeAnswers, correctCountOf, jsDiv, exAttempt0, exQuiz0,
    List.filter]

/-- C2 amended: for every quiz whose stored total question count is zero,
the unguarded division in the submit route makes the stored score the
non-finite value NaN (modelled as `none`) on every submission. -/
theorem submit_zero_questions_score_none (a : QuizAttempt) (quiz : Quiz)
    (ans : List AnswerIn) (now : Int) (h : quiz.total_questions = 0) :
    (submitAttempt a quiz ans now).score = none := by
  have hs : (submitAttempt a quiz ans now).score
      = (jsDiv (correctCountOf (gradeAnswers quiz.questions now ans) : ℚ)
          (quiz.total_questions : ℚ)).map (fun s => s * 100) := rfl
  rw [hs, h]
  simp [jsDiv]

/-- Witness for `submit_zero_questions_score_none`: the empty quiz. -/
theorem submit_zero_questions_score_none_witness :
    (submitAttempt exAttempt0 exQuiz0 [] 5).score = none :=
  submit_zero_questions_score_none exAttempt0 exQuiz0 [] 5 rfl

/-- The strengths loop is the filterMap of the per-answer strength tag. -/
theorem strengthsOf_eq_filterMap (qs : List Question) (g : List GradedAnswer) :
    strengthsOf qs g = g.filterMap (strengthTag qs) := by
  induction g with
  | nil => rfl
  | cons a rest ih =>
    rw [strengthsOf, List.filterMap_cons]
    rcases hf : findQuestion qs a.question_id with _ | qn
    · simp [strengthTag, hf, ih]
    · rcases hc : (a.is_correct && qn.difficulty == "hard") with _ | _ <;>
        simp [strengthTag, hf, hc, ih]

/-- The weaknesses loop is the filterMap of the per-answer weakness tag. -/
theorem weaknessesOf_eq_filterMap (qs : List Question) (g : List GradedAnswer) :
    weaknessesOf qs g = g.filterMap (weaknessTag qs) := by
  induction g with
  | nil => rfl
  | cons a rest ih =>
    rw [weaknessesOf, List.filterMap_cons]
    rcases hf : findQuestion qs a.question_id with _ | qn
    · simp [weaknessTag, hf, ih]
    · rcases hc : a.is_correct with _ | _ <;> simp [weaknessTag, hf, hc, ih]

/-- Characterization of a produced strength tag. -/
theorem strengthTag_eq_some (qs : List Question) (a : GradedAnswer) (s : String) :
    strengthTag qs a = some s ↔
      ∃ qn, findQuestion qs a.question_id = some qn ∧
        a.is_correct = true ∧ qn.difficulty = "hard" ∧ s = "Complex concepts" := by
  rcases hf : findQuestion qs a.question_id with _ | qn
  · simp [strengthTag, hf]
  · rcases hc : (a.is_correct && qn.difficulty == "hard") with _ | _
    · simp only [strengthTag, hf, hc]
      simp only [Bool.false_eq_true, if_false]
      constructor
      · intro h
        exact Option.noConfusion h
      · rintro ⟨qn2, hq2, hcor, hdiff, _⟩
        injection hq2 with h2
        subst h2
        simp [hcor, hdiff] at hc
    · have hc2 := hc
      simp only [Bool.and_eq_true, beq_iff_eq] at hc2
      simp only [strengthTag, hf, hc, if_true]
      constructor
      · intro h
        injection h with h2
        subst h2
        exact ⟨qn, rfl, hc2.1, hc2.2, rfl⟩
      · rintro ⟨qn2, hq2, _, _, hs⟩
        rw [hs]

/-- Characterization of a produced weakness tag. -/
theorem weaknessTag_eq_some (qs : List Question) (a : GradedAnswer) (w : String) :
    weaknessTag qs a = some w ↔
      ∃ qn, findQuestion qs a.question_id = some qn ∧
        a.is_correct = false ∧ w = qn.difficulty ++ " questions" := by
  rcases hf : findQuestion qs a.question_id with _ | qn
  · simp [weaknessTag, hf]
  · rcases hc : a.is_correct with _ | _
    · simp only [weaknessTag, hf, hc]
      simp only [Bool.false_eq_true, if_false]
      constructor
      · intro h
        injection h with h2
        subst h2
        exact ⟨qn, rfl, trivial, rfl⟩
      · rintro ⟨qn2, hq2, _, hw⟩
        injection hq2 with h2
        subst h2
        rw [hw]
    · simp only [weaknessTag, hf, hc, if_true]
      constructor
      · intro h
        exact Option.noConfusion h
      · rintro ⟨qn2, hq2, hcor, _⟩
        exact Bool.noConfusion hcor

/-- Membership in the Set-spread deduplication worker. -/
theorem mem_jsSetDedupAux (seen l : List String) (x : String) :
    x ∈ jsSetDedupAux seen l ↔ x ∈ l ∧ x ∉ seen := by
  induction l generalizing seen with
  | nil => simp [jsSetDedupAux]
  | cons y ys ih =>
    rw [jsSetDedupAux]
    by_cases hy : y ∈ seen
    · rw [if_pos hy, ih]
      constructor
      · rintro ⟨h1, h2⟩
        exact ⟨List.mem_cons_of_mem _ h1, h2⟩
      · rintro ⟨h1, h2⟩
        rcases List.mem_cons.mp h1 with h | h
        · subst h
          exact absurd hy h2
        · exact ⟨h, h2⟩
    · rw [if_neg hy]
      constructor
      · intro h
        rcases List.mem_cons.mp h with h | h
        · subst h
          exact ⟨List.mem_cons_self _ _, hy⟩
        · rcases (ih (y :: seen)).mp h with ⟨h1, h2⟩
          exact ⟨List.mem_cons_of_mem _ h1,
            fun hx => h2 (List.mem_cons_of_mem _ hx)⟩
      · rintro ⟨h1, h2⟩
        rcases List.mem_cons.mp h1 with h | h
        · subst h
          exact List.mem_cons_self _ _
        · by_cases hxy : x = y
          · subst hxy
            exact List.mem_cons_self _ _
          · exact List.mem_cons_of_mem _
              ((ih (y :: seen)).mpr ⟨h, by simp [hxy, h2]⟩)

/-- The Set-spread deduplication worker returns a duplicate-free list. -/
theorem nodup_jsSetDedupAux (seen l : List String) : (jsSetDedupAux seen l).Nodup := by
  induction l generalizing seen with
  | nil => simp [jsSetDedupAux]
  | cons y ys ih =>
    rw [jsSetDedupAux]
    by_cases hy : y ∈ seen
    · rw [if_pos hy]
      exact ih seen
    · rw [if_neg hy]
      refine List.nodup_cons.mpr ⟨?_, ih (y :: seen)⟩
      intro hmem
      exact ((mem_jsSetDedupAux (y :: seen) ys y).mp hmem).2 (List.mem_cons_self _ _)

/-- The Set-spread deduplication preserves membership. -/
theorem mem_jsSetDedup (l : List String) (x : String) : x ∈ jsSetDedup l ↔ x ∈ l := by
  rw [jsSetDedup, mem_jsSetDedupAux]
  simp

/-- The Set-spread deduplication returns a duplicate-free list. -/
theorem nodup_jsSetDedup (l : List String) : (jsSetDedup l).Nodup :=
  nodup_jsSetDedupAux [] l

/-- C8: after grading, a strength tag is stored exactly for correct answers
whose matching question is hard, a difficulty-keyed weakness tag exactly
for incorrect answers with a matching question, both collections are
duplicate-free, and the two-question example with one correct hard and one
incorrect medium answer yields strengths with the single tag for complex
concepts, weaknesses with the single medium-questions tag, and score 50. -/
theorem grade_performance_spec :
    (∀ (a : QuizAttempt) (quiz : Quiz) (ans : List AnswerIn) (now : Int) (s : String),
      s ∈ (submitAttempt a quiz ans now).performance_analysis.strengths ↔
        ∃ g ∈ gradeAnswers quiz.questions now ans, ∃ qn,
          findQuestion quiz.questions g.question_id = some qn ∧
          g.is_correct = true ∧ qn.difficulty = "hard" ∧ s = "Complex concepts") ∧
    (∀ (a : QuizAttempt) (quiz : Quiz) (ans : List AnswerIn) (now : Int) (w : String),
      w ∈ (submitAttempt a quiz ans now).performance_analysis.weaknesses ↔
        ∃ g ∈ gradeAnswers quiz.questions now ans, ∃ qn,
          findQuestion quiz.questions g.question_id = some qn ∧
          g.is_correct = false ∧ w = qn.difficulty ++ " questions") ∧
    (∀ (a : QuizAttempt) (quiz : Quiz) (ans : List AnswerIn) (now : Int),
      (submitAttempt a quiz ans now).performance_analysis.strengths.Nodup ∧
      (submitAttempt a quiz ans now).performance_analysis.weaknesses.Nodup) ∧
    ((submitAttempt exAttempt0 exQuiz2 [⟨"q1", "A", 10⟩, ⟨"q2", "C", 10⟩]
        7).performance_analysis.strengths = ["Complex concepts"] ∧
      (submitAttempt exAttempt0 exQuiz2 [⟨"q1", "A", 10⟩, ⟨"q2", "C", 10⟩]
        7).performance_analysis.weaknesses = ["medium questions"] ∧
      (submitAttempt exAttempt0 exQuiz2 [⟨"q1", "A", 10⟩, ⟨"q2", "C", 10⟩]
        7).score = some 50) := by
  have hstr : ∀ (a : QuizAttempt) (quiz : Quiz) (ans : List AnswerIn) (now : Int),
      (submitAttempt a quiz ans now).performance_analysis.strengths
        = jsSetDedup (strengthsOf quiz.questions (gradeAnswers quiz.questions now ans)) :=
    fun _ _ _ _ => rfl
  have hwk : ∀ (a : QuizAttempt) (quiz : Quiz) (ans : List AnswerIn) (now : Int),
      (submitAttempt a quiz ans now).performance_analysis.weaknesses
        = jsSetDedup (weaknessesOf quiz.questions (gradeAnswers quiz.questions now ans)) :=
    fun _ _ _ _ => rfl
  refine ⟨?_, ?_, ?_, ?_, ?_, ?_⟩
  · intro a quiz ans now s
    rw [hstr, mem_jsSetDedup, strengthsOf_eq_filterMap, List.mem_filterMap]
    constructor
    · rintro ⟨g, hg, ht⟩
      exact ⟨g, hg, (strengthTag_eq_some _ _ _).mp ht⟩
    · rintro ⟨g, hg, h⟩
      exact ⟨g, hg, (strengthTag_eq_some _ _ _).mpr h⟩
  · intro a quiz ans now w
    rw [hwk, mem_jsSetDedup, weaknessesOf_eq_filterMap, List.mem_filterMap]
    constructor
    · rintro ⟨g, hg, ht⟩
      exact ⟨g, hg, (weaknessTag_eq_some _ _ _).mp ht⟩
    · rintro ⟨g, hg, h⟩
      exact ⟨g, hg, (weaknessTag_eq_some _ _ _).mpr h⟩
  · intro a quiz ans now
    rw [hstr, hwk]
    exact ⟨nodup_jsSetDedup _, nodup_jsSetDedup _⟩
  · rfl
  · rfl
  · have h1 : ("q1" == "q2") = false := by decide
    have h2 : ("q2" == "q2") = true := by decide
    have h3 : ("q1" == "q1") = true := by decide
    have h4 : ("A" == "A") = true := by decide
    have h5 : ("B" == "C") = false := by decide
    norm_num [submitAttempt, gradeAnswers, gradeAnswer, findQuestion, correctCountOf, jsDiv,
      exAttempt0, exQuiz2, List.find?, List.filter, h1, h2, h3, h4, h5]

/-- Witness for `grade_performance_spec`: the hard-question strength tag is
stored on the example attempt. -/
theorem grade_performance_spec_witness :
    "Complex concepts" ∈ (submitAttempt exAttempt0 exQuiz2 [⟨"q1", "A", 10⟩, ⟨"q2", "C", 10⟩]
      7).performance_analysis.strengths := by
  rw [grade_performance_spec.2.2.2.1]
  exact List.mem_singleton.mpr rfl

/-- C7: the due query returns only non-archived cards whose next review
date is at or before `now`, never more than 50 of them, and returns the
empty list (not an error) when no card qualifies. -/
theorem selectDue_spec (cards : List Flashcard) (now : Int) :
    (∀ c ∈ selectDue cards now,
      c.is_archived = false ∧ c.spaced_repetition.next_review_date ≤ now) ∧
    (selectDue cards now).length ≤ 50 ∧
    ((∀ c ∈ cards, c.is_archived = true ∨ now < c.spaced_repetition.next_review_date) →
      selectDue cards now = []) := by
  refine ⟨?_, ?_, ?_⟩
  · intro c hc
    have hc2 : c ∈ cards.filter (fun c =>
        !c.is_archived && decide (c.spaced_repetition.next_review_date ≤ now)) :=
      List.take_subset _ _ hc
    rw [List.mem_filter] at hc2
    have hb := hc2.2
    simp only [Bool.and_eq_true, Bool.not_eq_true', decide_eq_true_eq] at hb
    exact hb
  · simp only [selectDue, List.length_take]
    exact min_le_left _ _
  · intro h
    have hfil : cards.filter (fun c =>
        !c.is_archived && decide (c.spaced_repetition.next_review_date ≤ now)) = [] := by
      rw [List.filter_eq_nil_iff]
      intro c hc hb
      simp only [Bool.and_eq_true, Bool.not_eq_true', decide_eq_true_eq] at hb
      rcases h c hc with h1 | h1
      · rw [h1] at hb
        exact Bool.noConfusion hb.1
      · exact absurd hb.2 (not_le.mpr h1)
    simp only [selectDue, hfil, List.take_nil]

/-- Witness for `selectDue_spec`: a single not-yet-due card yields the
empty selection. -/
theorem selectDue_spec_witness : selectDue [exNotDue] 0 = [] := by
  apply (selectDue_spec [exNotDue] 0).2.2
  intro c hc
  rw [List.mem_singleton] at hc
  subst hc
  right
  norm_num [exNotDue]

/-- C9: the streak computation gives the same value on any two permutations
of the same session list; the descending sort makes the result depend only
on the multiset of session timestamps. -/
theorem calculateStreak_perm (l1 l2 : List Int) (now : Int) (h : l1.Perm l2) :
    calculateStreak l1 now = calculateStreak l2 now := by
  have hsort : sortDesc l1 = sortDesc l2 := by
    unfold sortDesc
    have hperm := (List.perm_insertionSort (fun a b : Int => b ≤ a) l1).trans
      (h.trans (List.perm_insertionSort (fun a b : Int => b ≤ a) l2).symm)
    exact List.eq_of_perm_of_sorted hperm
      (List.sorted_insertionSort _ l1) (List.sorted_insertionSort _ l2)
  by_cases h1 : l1 = []
  · subst h1
    rw [h.symm.eq_nil]
  · have h2 : l2 ≠ [] := by
      intro e
      rw [e] at h
      exact h1 h.eq_nil
    unfold calculateStreak
    rw [hsort]
    have e1 : l1.isEmpty = false := List.isEmpty_eq_false.mpr h1
    have e2 : l2.isEmpty = false := List.isEmpty_eq_false.mpr h2
    rw [e1, e2]

/-- Witness for `calculateStreak_perm`: two orderings of the same two-day
session history give the same streak. -/
theorem calculateStreak_perm_witness :
    calculateStreak [0, 86400000] 86400000 = calculateStreak [86400000, 0] 86400000 :=
  calculateStreak_perm [0, 86400000] [86400000, 0] 86400000 (List.Perm.swap 86400000 0 [])

/-- The start of the day of a timestamp lies at or below it. -/
theorem dayStart_le (t : Int) : dayStart t ≤ t := by
  have h := Int.fmod_add_fdiv t msPerDay
  have h2 : 0 ≤ t.fmod msPerDay := Int.fmod_nonneg' t (by decide)
  unfold dayStart
  linarith

/-- A timestamp lies strictly before the start of the next day. -/
theorem lt_dayStart_add (t : Int) : t < dayStart t + msPerDay := by
  have h := Int.lt_fdiv_add_one_mul_self t (b := msPerDay) (by decide)
  have h3 : (t.fdiv msPerDay + 1) * msPerDay = msPerDay * t.fdiv msPerDay + msPerDay := by
    ring
  unfold dayStart
  linarith [h.trans_eq h3]

/-- C6 counterexample: with sessions on each of today, yesterday and the
day before yesterday, `calculateStreak` returns 2 although the count of
consecutive study days ending at the current day is 3: after a match the
cursor advances and the running streak still grows, so the expected day
gap is overstated from the third session on. -/
theorem streak_three_day_cex :
    calculateStreak [0, -86400000, -172800000] 0 = 2 ∧
    specStreak [0, -86400000, -172800000] 0 = 3 := by decide

/-- C6 amended: the three example evaluations hold: sessions on today and
yesterday give streak 2, a single session two days ago gives streak 0,
and no sessions give streak 0 (the general consecutive-day-count reading
fails, see the counterexample). -/
theorem streak_examples (now s1 s2 t : Int)
    (h1 : dayStart s1 = dayStart now)
    (h2 : dayStart s2 = dayStart now - msPerDay)
    (h3 : dayStart t = dayStart now - 2 * msPerDay) :
    calculateStreak [s1, s2] now = 2 ∧ calculateStreak [t] now = 0 ∧
      calculateStreak [] now = 0 := by
  refine ⟨?_, ?_, rfl⟩
  · have hlt : s2 ≤ s1 := by
      have a1 := dayStart_le s1
      have a2 := lt_dayStart_add s2
      rw [h2] at a2
      rw [h1] at a1
      have hms : (0 : Int) < msPerDay := by decide
      linarith
    have hsort : sortDesc [s1, s2] = [s1, s2] := by
      unfold sortDesc
      simp [List.insertionSort, List.orderedInsert, hlt]
    have hCS : calculateStreak [s1, s2] now
        = streakGo (sortDesc [s1, s2]) 0 (dayStart now) := rfl
    rw [hCS, hsort]
    have e1 : (dayStart now - dayStart s1).fdiv msPerDay = 0 := by
      rw [h1, sub_self, Int.zero_fdiv]
    have e2 : (dayStart s1 - dayStart s2).fdiv msPerDay = 1 := by
      rw [h1, h2]
      have hh : dayStart now - (dayStart now - msPerDay) = msPerDay := by ring
      rw [hh]
      exact Int.fdiv_self (by decide)
    simp [streakGo, e1, e2]
  · have hsort1 : sortDesc [t] = [t] := by
      simp [sortDesc, List.insertionSort, List.orderedInsert]
    have hCS : calculateStreak [t] now = streakGo (sortDesc [t]) 0 (dayStart now) := rfl
    rw [hCS, hsort1]
    have e3 : (dayStart now - dayStart t).fdiv msPerDay = 2 := by
      rw [h3]
      have hh : dayStart now - (dayStart now - 2 * msPerDay) = 2 * msPerDay := by ring
      rw [hh]
      exact Int.mul_fdiv_cancel 2 (by decide)
    simp [streakGo, e3]

/-- Witness for `streak_examples`: concrete timestamps at midnight of
day 0, the day before, and two days before. -/
theorem streak_examples_witness :
    calculateStreak [0, -86400000] 0 = 2 ∧ calculateStreak [(-172800000 : Int)] 0 = 0 ∧
      calculateStreak [] 0 = 0 :=
  streak_examples 0 0 (-86400000) (-172800000) rfl (by decide) (by decide)

end StudyPal
